import Mathlib

/-!
Verification of the GiggleGlide personalized recommendation engine.

This file shallowly embeds the tag/preference data model and the
recommendation, preference-learning, diversity and caching operations of
the backend (`src/backend/database/repositories/tag_repository.py`,
`src/backend/database/repositories/personalization_repository.py`,
`src/backend/services/personalization_service.py`) and proves or refutes
the frozen claims about them.

Modelling conventions:
- Python floats are modelled as rationals (`ℚ`); every arithmetic
  operation appearing in the embedded code (`+`, `*`, `/`, `min`, `max`)
  is exact on the inputs involved.
- Database rows are in-memory lists; SQL filters become list filters.
- `random.shuffle` / `random.uniform` are injected as function
  parameters so theorems can quantify over them.
- Fallible steps return `Except String α`; `try/except` becomes a match
  on that result.
-/

namespace GiggleGlide

/-- Tag row: taxonomy label (style/format/topic/tone). -/
structure Tag where
  id : String
  name : String
  category : String
  value : String
deriving DecidableEq, Repr

/-- Joke row (the fields the recommendation logic reads). -/
structure Joke where
  id : String
  language : String
  rating : ℚ
deriving DecidableEq, Repr

/-- JokeInteraction row. `recent` models `created_at >= time_threshold`
for the trending window. -/
structure Interaction where
  user_id : String
  joke_id : String
  itype : String
  recent : Bool
deriving DecidableEq, Repr

/-- UserTagScore row contents for one `(user_id, tag_id)` pair:
`score` and `interaction_count` (`score=0.0`, `interaction_count=0` on
creation, as in `TagRepository.update_user_tag_score`). -/
structure ScoreRow where
  score : ℚ
  interaction_count : ℕ
deriving DecidableEq, Repr

/-- Core of `TagRepository.update_user_tag_score`: given the existing row
(or `none` if the `(user_id, tag_id)` row does not exist yet, in which
case a fresh row with score 0.0 and interaction_count 0 is created), apply
the decaying-learning-rate update and clamp the score to `[-1, 1]`. -/
def update_user_tag_score (row : Option ScoreRow) (score_delta interaction_weight : ℚ) :
    ScoreRow :=
  let r := row.getD { score := 0, interaction_count := 0 }
  let alpha : ℚ := min (3/10) (1 / (r.interaction_count + 1))
  let new_score := r.score + alpha * score_delta * interaction_weight
  { score := max (-1) (min 1 new_score), interaction_count := r.interaction_count + 1 }

/-- Run a sequence of `update_user_tag_score` calls on one
`(user_id, tag_id)` row, starting from no row (the first call creates the
default row, which is the same as updating the default row). Each list
element is a `(score_delta, interaction_weight)` pair. -/
def run_tag_score_updates (updates : List (ℚ × ℚ)) : ScoreRow :=
  updates.foldl (fun r du => update_user_tag_score (some r) du.1 du.2)
    { score := 0, interaction_count := 0 }

lemma update_user_tag_score_bounds (row : Option ScoreRow) (d w : ℚ) :
    -1 ≤ (update_user_tag_score row d w).score ∧ (update_user_tag_score row d w).score ≤ 1 := by
  refine ⟨le_max_left _ _, max_le (by norm_num) (min_le_left _ _)⟩

lemma run_tag_score_updates_go (updates : List (ℚ × ℚ)) (init : ScoreRow)
    (h : -1 ≤ init.score ∧ init.score ≤ 1) :
    -1 ≤ (updates.foldl (fun r du => update_user_tag_score (some r) du.1 du.2) init).score ∧
      (updates.foldl (fun r du => update_user_tag_score (some r) du.1 du.2) init).score ≤ 1 := by
  induction updates generalizing init with
  | nil => exact h
  | cons u us ih => exact ih _ (update_user_tag_score_bounds _ _ _)

/-- Preference rows of one user, keyed by tag id (the
`(user_id, tag_id)` unique constraint makes the key unique). -/
def PrefStore := List (String × ScoreRow)

/-- Look up the `UserTagScore` row for a tag (the select in
`TagRepository.update_user_tag_score`). -/
def lookupRow (store : PrefStore) (tag_id : String) : Option ScoreRow :=
  (List.find? (fun p => p.1 = tag_id) store).map Prod.snd

/-- Write back a row: replace the existing row for the key or insert a
new one. -/
def setRow : PrefStore → String → ScoreRow → PrefStore
  | [], t, r => [(t, r)]
  | p :: ps, t, r => if p.1 = t then (t, r) :: ps else p :: setRow ps t r

/-- `TagRepository.update_user_tag_score` acting on the store of one
user: get-or-create the row, apply the update rule, write back. -/
def repo_update_user_tag_score (store : PrefStore) (tag_id : String)
    (score_delta interaction_weight : ℚ) : PrefStore :=
  setRow store tag_id
    (update_user_tag_score (lookupRow store tag_id) score_delta interaction_weight)

/-- Interaction-type score deltas of
`PersonalizationRepository.update_preferences_from_interaction`
(`score_changes.get(interaction_type, 0)`). -/
def score_changes (interaction_type : String) : ℚ :=
  if interaction_type = "like" then 3/10
  else if interaction_type = "skip" then -(1/10)
  else if interaction_type = "view" then 1/20
  else 0

/-- `PersonalizationRepository.update_preferences_from_interaction`:
look up the joke's tags (passed in as `joke_tags`, each with its
confidence), derive the delta from the interaction type (no-op when 0 or
when the joke has no tags), and for each tag call
`update_user_tag_score` with `score_delta = delta * confidence` and
`interaction_weight = confidence`. Returns the new store and the number
of tag scores updated. -/
def update_preferences_from_interaction (store : PrefStore) (joke_tags : List (Tag × ℚ))
    (interaction_type : String) : PrefStore × ℕ :=
  if joke_tags = [] then (store, 0)
  else
    let score_delta := score_changes interaction_type
    if score_delta = 0 then (store, 0)
    else
      joke_tags.foldl
        (fun st tc => (repo_update_user_tag_score st.1 tc.1.id (score_delta * tc.2) tc.2, st.2 + 1))
        (store, 0)

set_option linter.unusedVariables false in
/-- `PersonalizationService.update_user_preferences`: delegates the score
updates to `update_preferences_from_interaction`. The `feedback_strength`
argument is accepted (and echoed in the result dict in the source) but is
never passed to the repository update. -/
def service_update_user_preferences (store : PrefStore) (joke_tags : List (Tag × ℚ))
    (interaction_type : String) (feedback_strength : ℚ) : PrefStore × ℕ :=
  update_preferences_from_interaction store joke_tags interaction_type

/-- Effective score change as the claim states it: the §4.2 rule applied
to the interaction delta weighted once by `feedbackStrength * confidence`.
Modelled from the spec's words, for comparison with the source. -/
def claimed_effective_change (alpha delta feedback_strength confidence : ℚ) : ℚ :=
  alpha * delta * feedback_strength * confidence

/-- Python `str.lower()` on the strings involved (ASCII tag names);
written via `List.map` so that it evaluates by `decide`. -/
def pyLower (s : String) : String := ⟨s.data.map Char.toLower⟩

/-- `PersonalizationService._initialize_user_preferences`: for each
category → tag-name list, look the names up (case-insensitively, last
duplicate wins as in the Python dict build) among the category's tags and
call `update_user_tag_score` with `score_delta = 0.5`,
`interaction_weight = 1.0` for each match. -/
def initialize_user_preferences (getTagsByCategory : String → List Tag)
    (preferences : List (String × List String)) (store : PrefStore) : PrefStore :=
  preferences.foldl
    (fun st cp =>
      let tags := getTagsByCategory cp.1
      cp.2.foldl
        (fun st name =>
          match List.find? (fun t => pyLower t.name = pyLower name) tags.reverse with
          | some t => repo_update_user_tag_score st t.id (1/2) 1
          | none => st)
        st)
    store

/-- Python `user_preferences.get(tag.id, 0.0)`: preference-map lookup
with default 0. The map (a Python dict in the source) is modelled as an
association list. -/
def plookup (prefs : List (String × ℚ)) (tag_id : String) : ℚ :=
  ((List.find? (fun p => p.1 = tag_id) prefs).map Prod.snd).getD 0

/-- `PersonalizationRepository._calculate_exploitation_score`: the
confidence-weighted average of the user's preference for the joke's
tags; 0 when the joke has no tags, the user has no preferences, or the
total confidence weight is not positive. The single loop accumulating
`(total_score, total_weight)` is a `foldl` on a pair. -/
def calculate_exploitation_score (joke_tags : List (Tag × ℚ))
    (user_preferences : List (String × ℚ)) : ℚ :=
  if joke_tags = [] ∨ user_preferences = [] then 0
  else
    let totals :=
      joke_tags.foldl
        (fun (acc : ℚ × ℚ) tc => (acc.1 + plookup user_preferences tc.1.id * tc.2, acc.2 + tc.2))
        (0, 0)
    if totals.2 > 0 then totals.1 / totals.2 else 0

/-- Total of `preference * confidence` over the joke's tags (the
`total_score` accumulator). -/
def totalScore (joke_tags : List (Tag × ℚ)) (prefs : List (String × ℚ)) : ℚ :=
  joke_tags.foldl (fun a tc => a + plookup prefs tc.1.id * tc.2) 0

/-- Total confidence over the joke's tags (the `total_weight`
accumulator). -/
def totalWeight (joke_tags : List (Tag × ℚ)) : ℚ :=
  joke_tags.foldl (fun a tc => a + tc.2) 0

/-- Total confidence carried by occurrences of one tag id in the joke's
tag list. -/
def confSum (joke_tags : List (Tag × ℚ)) (t : String) : ℚ :=
  joke_tags.foldl (fun a tc => if tc.1.id = t then a + tc.2 else a) 0

/-- One entry of a recommendation list: `(joke, score, strategy)`. -/
abbrev Rec3 := Joke × ℚ × String

/-- Python dict lookup on `category_groups`. -/
def groupsLookup (groups : List (String × List Rec3)) (c : String) : Option (List Rec3) :=
  (List.find? (fun g => g.1 = c) groups).map Prod.snd

/-- Replace the value stored under an existing key of `category_groups`. -/
def groupsSet : List (String × List Rec3) → String → List Rec3 → List (String × List Rec3)
  | [], c, v => [(c, v)]
  | g :: gs, c, v => if g.1 = c then (c, v) :: gs else g :: groupsSet gs c v

/-- Python `category_groups.setdefault(c, []).append(r)` (insertion order
preserved, as in a Python dict). -/
def groupsAppend (groups : List (String × List Rec3)) (c : String) (r : Rec3) :
    List (String × List Rec3) :=
  match groupsLookup groups c with
  | some l => groupsSet groups c (l ++ [r])
  | none => groups ++ [(c, [r])]

/-- Python `del category_groups[c]`. -/
def groupsRemove (groups : List (String × List Rec3)) (c : String) :
    List (String × List Rec3) :=
  groups.filter (fun g => ¬(g.1 = c))

/-- Grouping phase of `PersonalizationService._ensure_diversity`: for each
candidate fetch the joke's tags (`tag_repo.get_joke_tags`, which may
raise) and, when the joke has at least one tag, append the candidate to
the group of its primary (first listed, i.e. highest-confidence) tag's
category. Candidates with no tags are not added to any group. -/
def build_groups (tagsOf : String → Except String (List (Tag × ℚ))) :
    List Rec3 → List (String × List Rec3) → Except String (List (String × List Rec3))
  | [], groups => .ok groups
  | r :: rs, groups =>
    match tagsOf r.1.id with
    | .error e => .error e
    | .ok [] => build_groups tagsOf rs groups
    | .ok ((t, _) :: _) => build_groups tagsOf rs (groupsAppend groups t.category r)

/-- Mutable state of the round-robin selection loop in
`_ensure_diversity`: the category groups, the live key list
`category_keys`, and the accumulated `diverse_recs`. -/
structure RRState where
  groups : List (String × List Rec3)
  keys : List String
  acc : List Rec3

/-- One body of `for category in category_keys[:]`: pop the best item of
the category's group (if present and non-empty) onto the accumulator,
`break` (second component `true`) when `limit` is reached, otherwise
delete the category if its group became empty. -/
def rrStep (limit : ℕ) (c : String) (st : RRState) : RRState × Bool :=
  let popped :=
    match groupsLookup st.groups c with
    | some (x :: rest) =>
      (groupsSet st.groups c rest, st.acc ++ [x], decide (st.acc.length + 1 ≥ limit))
    | _ => (st.groups, st.acc, false)
  match popped with
  | (groups, acc, brk) =>
    if brk then ({ groups := groups, keys := st.keys, acc := acc }, true)
    else
      match groupsLookup groups c with
      | some [] =>
        ({ groups := groupsRemove groups c, keys := st.keys.erase c, acc := acc }, false)
      | _ => ({ groups := groups, keys := st.keys, acc := acc }, false)

/-- One full `for category in category_keys[:]` pass over the snapshot of
the key list taken at the start of a `while` iteration. -/
def rrPass (limit : ℕ) : List String → RRState → RRState
  | [], st => st
  | c :: cs, st =>
    match rrStep limit c st with
    | (st', true) => st'
    | (st', false) => rrPass limit cs st'

/-- The `while len(diverse_recs) < limit and category_groups:` loop.
`fuel` bounds the number of iterations; every reachable iteration pops at
least one candidate, so `recs.length + 1` fuel is enough. -/
def rrLoop (limit : ℕ) : ℕ → RRState → List Rec3
  | 0, st => st.acc
  | fuel+1, st =>
    if st.acc.length < limit ∧ st.groups ≠ [] then
      rrLoop limit fuel (rrPass limit st.keys st)
    else st.acc

/-- `PersonalizationService._ensure_diversity`: lists not longer than
`limit` are returned unchanged (before any tag lookup); otherwise group
by primary tag category and round-robin across the groups. -/
def ensure_diversityE (tagsOf : String → Except String (List (Tag × ℚ)))
    (recommendations : List Rec3) (limit : ℕ) : Except String (List Rec3) :=
  if recommendations.length ≤ limit then .ok recommendations
  else
    match build_groups tagsOf recommendations [] with
    | .error e => .error e
    | .ok groups =>
      .ok (rrLoop limit (recommendations.length + 1)
        { groups := groups, keys := groups.map Prod.fst, acc := [] })

/-- All recommendations stored in a group map satisfy `P`. -/
def groupsItemsP (P : Rec3 → Prop) (groups : List (String × List Rec3)) : Prop :=
  ∀ e ∈ groups, ∀ r ∈ e.2, P r

/-- Value of a Python expression that should be a float score: either an
actual float, or the un-awaited coroutine object produced by calling an
`async def` without `await` (it carries the value an `await` would have
produced, but is not a number). -/
inductive PyValue where
  | float (x : ℚ)
  | coroutine (x : ℚ)
deriving DecidableEq, Repr

/-- In-memory slice of the relational store read by the recommendation
paths. `joke_tags` rows are `(joke_id, tag, confidence)`; `user_scores`
rows are `(user_id, tag_id, score)`. -/
structure Store where
  jokes : List Joke
  joke_tags : List (String × Tag × ℚ)
  interactions : List Interaction
  user_scores : List (String × String × ℚ)
deriving Repr

/-- Ids of jokes the user has seen: the `seen_subquery` selecting
interactions of type view/like/skip. -/
def seen_joke_ids (store : Store) (user_id : String) : List String :=
  (store.interactions.filter (fun i =>
    i.user_id = user_id ∧ (i.itype = "view" ∨ i.itype = "like" ∨ i.itype = "skip"))).map
    (fun i => i.joke_id)

/-- Stable insertion step for descending sort by a rational key. -/
def insertDescBy {α : Type} (key : α → ℚ) (x : α) : List α → List α
  | [] => [x]
  | y :: ys => if key y ≤ key x then x :: y :: ys else y :: insertDescBy key x ys

/-- Stable descending sort by a rational key: models Python's stable
`list.sort(key=..., reverse=True)` and SQL `ORDER BY ... DESC` (ties keep
their incoming order). -/
def sortDescBy {α : Type} (key : α → ℚ) : List α → List α
  | [] => []
  | x :: xs => insertDescBy key x (sortDescBy key xs)

/-- `TagRepository.get_joke_tags`: the joke's `(tag, confidence)` pairs
ordered by confidence descending. -/
def get_joke_tags (store : Store) (joke_id : String) : List (Tag × ℚ) :=
  sortDescBy (fun tc => tc.2)
    ((store.joke_tags.filter (fun jt => jt.1 = joke_id)).map (fun jt => jt.2))

/-- `PersonalizationRepository._get_user_preferences`: the user's
tag-id → score map. -/
def get_user_preferences (store : Store) (user_id : String) : List (String × ℚ) :=
  (store.user_scores.filter (fun s => s.1 = user_id)).map (fun s => s.2)

/-- `PersonalizationRepository._get_unseen_jokes_with_tags`:
language-matched jokes not in the user's view/like/skip set with
`rating >= 2.0` (at most 200), each paired with its tags of confidence
`>= min_confidence` (in row order; the helper's tag query has no ORDER
BY); jokes whose filtered tag list is empty are dropped. -/
def get_unseen_jokes_with_tags (store : Store) (user_id language : String)
    (min_confidence : ℚ) : List (Joke × List (Tag × ℚ)) :=
  let seen := seen_joke_ids store user_id
  let jokes :=
    (store.jokes.filter (fun j => j.language = language ∧ j.id ∉ seen ∧ j.rating ≥ 2)).take 200
  (jokes.map (fun j =>
    (j, (store.joke_tags.filter (fun jt => jt.1 = j.id ∧ jt.2.2 ≥ min_confidence)).map
      (fun jt => jt.2)))).filter (fun jt => ¬(jt.2 = []))

/-- `JokeRepository.get_trending_jokes`: language-matched jokes having at
least one interaction inside the trending window (`Interaction.recent`),
ordered by that interaction count descending, truncated to `limit`. -/
def get_trending_jokes (store : Store) (language : String) (limit : ℕ) : List Joke :=
  let withCounts := store.jokes.filterMap (fun j =>
    let cnt := (store.interactions.filter (fun i => i.joke_id = j.id ∧ i.recent)).length
    if j.language = language ∧ cnt > 0 then some (j, cnt) else none)
  ((sortDescBy (fun p => (p.2 : ℚ)) withCounts).map Prod.fst).take limit

/-- Interaction weights of
`PersonalizationRepository._calculate_collaborative_score`
(`.get(interaction_type, 0.0)`). -/
def interaction_score (itype : String) : ℚ :=
  if itype = "like" then 1
  else if itype = "view" then 3/10
  else if itype = "skip" then -(1/2)
  else 0

/-- The `user_similarity_map` lookup. -/
def simLookup (similar_users : List (String × ℚ)) (u : String) : ℚ :=
  ((List.find? (fun p => p.1 = u) similar_users).map Prod.snd).getD 0

/-- `PersonalizationRepository._calculate_collaborative_score`: the
similarity-weighted average of the interaction weights over all
interaction rows on the joke by similar users. -/
def calculate_collaborative_score (store : Store) (joke_id : String)
    (similar_users : List (String × ℚ)) : ℚ :=
  if similar_users = [] then 0
  else
    let rows := store.interactions.filter (fun i =>
      i.joke_id = joke_id ∧ similar_users.any (fun p => p.1 = i.user_id))
    let totals := rows.foldl
      (fun (acc : ℚ × ℚ) i =>
        (acc.1 + interaction_score i.itype * simLookup similar_users i.user_id,
         acc.2 + simLookup similar_users i.user_id))
      (0, 0)
    if totals.2 > 0 then totals.1 / totals.2 else 0

/-- `PersonalizationRepository.get_similar_users_recommendations`, with
the similar-user list (the output of `_find_similar_users`) supplied as a
parameter: language-matched jokes, unseen by the target user, liked by at
least one similar user, ordered by that like count descending (the
secondary `avg_rating` key is constantly 1.0 on like-filtered rows),
truncated to `limit`. Each joke is paired with the result of
`self._calculate_collaborative_score(...)` — an `async` method invoked
WITHOUT `await` in the source, so the stored value is the coroutine
object, not the float the formula would produce. -/
def get_similar_users_recommendations (store : Store) (similar_users : List (String × ℚ))
    (user_id language : String) (limit : ℕ) : List (Joke × PyValue) :=
  if similar_users = [] then []
  else
    let seen := seen_joke_ids store user_id
    let liked := store.jokes.filterMap (fun j =>
      let likes := store.interactions.filter (fun i =>
        i.joke_id = j.id ∧ i.itype = "like" ∧ similar_users.any (fun p => p.1 = i.user_id))
      if j.language = language ∧ j.id ∉ seen ∧ likes.length > 0 then some (j, likes.length)
      else none)
    let ordered := (sortDescBy (fun p => (p.2 : ℚ)) liked).map Prod.fst
    (ordered.take limit).map (fun j =>
      (j, PyValue.coroutine (calculate_collaborative_score store j.id similar_users)))

/-- Numeric reading of a stored score value (for plumbing a collaborative
score into the service layer; per C3 the source actually stores the
coroutine object). -/
def scoreValue : PyValue → ℚ
  | .float x => x
  | .coroutine x => x

/-- Injected randomness of the repository's ε-greedy path:
`random.shuffle(remaining_jokes)`, `random.uniform(-0.2, 0.2)` per
explore slot, and the final `random.shuffle(recommendations)`. -/
structure Rng where
  shuffleRemaining : List (Joke × List (Tag × ℚ) × ℚ) → List (Joke × List (Tag × ℚ) × ℚ)
  explore_noise : ℕ → ℚ
  shuffleFinal : List Rec3 → List Rec3

/-- Deterministic instance: identity shuffles, zero noise. -/
def idRng : Rng :=
  { shuffleRemaining := id, explore_noise := fun _ => 0, shuffleFinal := id }

/-- `PersonalizationRepository.get_personalized_recommendations`
(content-based ε-greedy path): score the unseen tagged jokes, sort by
exploitation score descending (stable), take
`int(limit * (1 - exploration_rate))` exploit picks, fill explore slots
from a shuffle of the rest with uniform noise added, shuffle the final
list and truncate to `limit`. `int()` is `⌊·⌋` (the operand is
nonnegative for exploration rates in [0,1]). -/
def repo_get_personalized_recommendations (store : Store) (user_id : String) (limit : ℕ)
    (exploration_rate min_confidence : ℚ) (language : String) (rng : Rng) : List Rec3 :=
  let user_preferences := get_user_preferences store user_id
  let unseen_jokes := get_unseen_jokes_with_tags store user_id language min_confidence
  if unseen_jokes = [] then []
  else
    let scored_jokes := unseen_jokes.map (fun jt =>
      (jt.1, jt.2, calculate_exploitation_score jt.2 user_preferences))
    let sorted := sortDescBy (fun x => x.2.2) scored_jokes
    let exploit_count := (⌊(limit : ℚ) * (1 - exploration_rate)⌋).toNat
    let explore_count := limit - exploit_count
    let exploit_recs := (sorted.take exploit_count).map (fun x => (x.1, x.2.2, "exploit"))
    let explore_recs :=
      if 0 < explore_count ∧ exploit_count < sorted.length then
        let remaining := rng.shuffleRemaining (sorted.drop exploit_count)
        (remaining.take explore_count).enum.map
          (fun ix => (ix.2.1, ix.2.2.2 + rng.explore_noise ix.1, "explore"))
      else []
    (rng.shuffleFinal (exploit_recs ++ explore_recs)).take limit

/-- Result record of `PersonalizationService.get_personalized_recommendations`.
The two metric dicts are association lists (booleans in the source's
metrics dict are modelled as 0/1). -/
structure RecommendationResult where
  jokes : List Rec3
  strategy_breakdown : List (String × ℕ)
  performance_metrics : List (String × ℚ)
  cache_hit : Bool
deriving DecidableEq, Repr

/-- Increment a strategy counter (`breakdown.get(strategy, 0) + 1`,
insertion-ordered as a Python dict). -/
def bump : List (String × ℕ) → String → List (String × ℕ)
  | [], s => [(s, 1)]
  | e :: es, s => if e.1 = s then (e.1, e.2 + 1) :: es else e :: bump es s

/-- `PersonalizationService._calculate_strategy_breakdown`. -/
def strategy_breakdown_of (recs : List Rec3) : List (String × ℕ) :=
  recs.foldl (fun b r => bump b r.2.2) []

/-- Deduplication by joke id of
`PersonalizationService._combine_recommendations` (first occurrence
wins); `seen` is the already-seen id set. -/
def dedupById : List Rec3 → List String → List Rec3
  | [], _ => []
  | r :: rs, seen =>
    if r.1.id ∈ seen then dedupById rs seen else r :: dedupById rs (r.1.id :: seen)

/-- `PersonalizationService._combine_recommendations`: tag collaborative
entries with strategy `"collaborative"`, concatenate after the content
entries, deduplicate by joke id, then diversity-rank to `limit`. -/
def combine_recommendations (tagsOf : String → Except String (List (Tag × ℚ)))
    (content_recs : List Rec3) (collaborative_recs : List (Joke × ℚ)) (limit : ℕ) :
    Except String (List Rec3) :=
  let all_recs :=
    content_recs ++ collaborative_recs.map (fun js => (js.1, js.2, "collaborative"))
  ensure_diversityE tagsOf (dedupById all_recs []) limit

/-- Outcomes of the service's fallible collaborator calls, so that
theorems can quantify over every failure pattern. `collaborative` scores
are taken numerically here (the repository-level C3 theorem records that
the source actually pairs a coroutine object). -/
structure ServiceEnv where
  content : Except String (List Rec3)
  collaborative : Except String (List (Joke × ℚ))
  tagsOf : String → Except String (List (Tag × ℚ))
  metrics : Except String (List (String × ℚ))
  trending : Except String (List Joke)
  ai_available : Bool
  ai_cooldown : Bool
  ai_jokes : Except String (List Joke)

/-- Body of the `try` block of
`PersonalizationService.get_personalized_recommendations` after the cache
check: content step, optional collaborative step, combine + diversity,
strategy breakdown, performance metrics
(`_calculate_performance_metrics` catches its own errors and degrades to
`{'processing_time_seconds': 0.0}`). -/
def service_main (env : ServiceEnv) (limit : ℕ) (use_collaborative : Bool) :
    Except String RecommendationResult :=
  match env.content with
  | .error e => .error e
  | .ok content_recs =>
    match (if use_collaborative then env.collaborative else .ok []) with
    | .error e => .error e
    | .ok collaborative_recs =>
      match combine_recommendations env.tagsOf content_recs collaborative_recs limit with
      | .error e => .error e
      | .ok final_recs =>
        let perf :=
          match env.metrics with
          | .ok m => m
          | .error _ => [("processing_time_seconds", 0)]
        .ok
          { jokes := final_recs,
            strategy_breakdown := strategy_breakdown_of final_recs,
            performance_metrics := perf,
            cache_hit := false }

/-- Trending-only fallback result (`strategy = "fallback"`, score 0.5). -/
def mk_fallback_result (trending : List Joke) : RecommendationResult :=
  { jokes := trending.map (fun j => (j, (1:ℚ)/2, "fallback")),
    strategy_breakdown := [("fallback", trending.length)],
    performance_metrics := [("fallback", 1)],
    cache_hit := false }

/-- Body of the `try` block of
`PersonalizationService._get_fallback_recommendations`: trending jokes;
when short of `limit` and the AI collaborator is available and out of
cooldown, append generated jokes (score 0.7, `"ai_generated"`, truncated
to `limit`); AI errors are caught inside and degrade to trending-only. -/
def fallback_inner (env : ServiceEnv) (limit : ℕ) : Except String RecommendationResult :=
  match env.trending with
  | .error e => .error e
  | .ok trending =>
    if trending.length ≥ limit then .ok (mk_fallback_result trending)
    else if env.ai_available ∧ ¬env.ai_cooldown then
      match env.ai_jokes with
      | .ok ai =>
        let all := trending.map (fun j => (j, (1:ℚ)/2, "fallback")) ++
          ai.map (fun j => (j, (7:ℚ)/10, "ai_generated"))
        .ok
          { jokes := all.take limit,
            strategy_breakdown := [("fallback", trending.length), ("ai_generated", ai.length)],
            performance_metrics := [("ai_fallback", 1)],
            cache_hit := false }
      | .error _ => .ok (mk_fallback_result trending)
    else .ok (mk_fallback_result trending)

/-- `PersonalizationService._get_fallback_recommendations`: its outer
`except` converts any failure into an empty result, so the function
always returns. -/
def get_fallback_recommendations (env : ServiceEnv) (limit : ℕ) : RecommendationResult :=
  match fallback_inner env limit with
  | .ok r => r
  | .error _ =>
    { jokes := [], strategy_breakdown := [], performance_metrics := [("error", 1)],
      cache_hit := false }

/-- `PersonalizationService.get_personalized_recommendations` without the
cache layer (cache handling is modelled in `service_call`): any failure
in the main path is caught and answered by the fallback path. -/
def service_get_personalized_recommendations (env : ServiceEnv) (limit : ℕ)
    (use_collaborative : Bool) : Except String RecommendationResult :=
  match service_main env limit use_collaborative with
  | .ok r => .ok r
  | .error _ => .ok (get_fallback_recommendations env limit)

/-- The cache key
`f"{user_id}_{limit}_{language}_{exclude_seen}"` (note: no
`use_collaborative` component; Python renders booleans as
`True`/`False`). -/
def cache_key (user_id : String) (limit : ℕ) (language : String) (exclude_seen : Bool) :
    String :=
  user_id ++ "_" ++ toString limit ++ "_" ++ language ++ "_" ++
    (if exclude_seen then "True" else "False")

/-- One entry of `_preference_cache` together with its `_cache_expiry`
timestamp (absolute seconds; the TTL is 300 s = 5 min). -/
structure CacheEntry where
  key : String
  result : RecommendationResult
  expiry : ℚ
deriving Repr

/-- `PersonalizationService._get_cached_recommendations`: a hit while
`now < expiry` returns the entry marked `cache_hit := true` (expired
entries are treated as misses; their eager deletion does not change any
returned value). -/
def get_cached_recommendations (cache : List CacheEntry) (key : String) (now : ℚ) :
    Option RecommendationResult :=
  match List.find? (fun e => e.key = key) cache with
  | some e => if now < e.expiry then some { e.result with cache_hit := true } else none
  | none => none

/-- `PersonalizationService._cache_recommendations`: store under the key
with a 5-minute expiry (dict assignment replaces any previous entry). -/
def cache_store (cache : List CacheEntry) (key : String) (r : RecommendationResult)
    (now : ℚ) : List CacheEntry :=
  (cache.filter (fun e => ¬(e.key = key))) ++ [{ key := key, result := r, expiry := now + 300 }]

/-- Full `get_personalized_recommendations` call including the cache
check: hit → return cached (marked); miss → run the main path, cache a
successful result (the fallback result of a failed main path is NOT
cached), return it together with the updated cache. -/
def service_call (cache : List CacheEntry) (now : ℚ) (env : ServiceEnv) (user_id : String)
    (limit : ℕ) (language : String) (exclude_seen use_collaborative : Bool) :
    RecommendationResult × List CacheEntry :=
  let key := cache_key user_id limit language exclude_seen
  match get_cached_recommendations cache key now with
  | some r => (r, cache)
  | none =>
    match service_main env limit use_collaborative with
    | .ok r => (r, cache_store cache key r now)
    | .error _ => (get_fallback_recommendations env limit, cache)

/-- Environment in which every collaborator call fails. -/
def c4_env_err : ServiceEnv :=
  { content := .error "db", collaborative := .error "db", tagsOf := fun _ => .error "db",
    metrics := .error "db", trending := .error "db",
    ai_available := false, ai_cooldown := false, ai_jokes := .error "db" }

/-- Store for the C3 scenario: joke `k` liked by similar user `B`,
target user `A` has not seen it. -/
def c3_store : Store :=
  { jokes := [{ id := "k", language := "en", rating := 3 }],
    joke_tags := [],
    interactions := [{ user_id := "B", joke_id := "k", itype := "like", recent := true }],
    user_scores := [] }

/-- Store for the C5 counterexample: the single joke `j1` was viewed by
user `A` (and is therefore both seen and trending). -/
def c5_store : Store :=
  { jokes := [{ id := "j1", language := "en", rating := 3 }],
    joke_tags := [],
    interactions := [{ user_id := "A", joke_id := "j1", itype := "view", recent := true }],
    user_scores := [] }

/-- Environment of the C5 counterexample: the content step fails (a
storage error), the fallback trending list is read from `c5_store`. -/
def c5_env : ServiceEnv :=
  { content := .error "db", collaborative := .ok [],
    tagsOf := fun j => .ok (get_joke_tags c5_store j),
    metrics := .ok [], trending := .ok (get_trending_jokes c5_store "en" 1),
    ai_available := false, ai_cooldown := false, ai_jokes := .ok [] }

/-- A sample tag. -/
def tagObs : Tag :=
  { id := "t1", name := "Observational", category := "style", value := "observational" }

/-- Store for the C5 witness: one unseen tagged joke. -/
def c5w_store : Store :=
  { jokes := [{ id := "j1", language := "en", rating := 3 }],
    joke_tags := [("j1", tagObs, 3/5)],
    interactions := [],
    user_scores := [] }

/-- Store of end-to-end scenario 1 (C6): five trending English jokes
(each with a confident tag and a recent interaction by another user `B`),
target user `A` with no interactions and no preference rows. -/
def c6_store : Store :=
  { jokes :=
      [{ id := "j1", language := "en", rating := 3 },
       { id := "j2", language := "en", rating := 3 },
       { id := "j3", language := "en", rating := 3 },
       { id := "j4", language := "en", rating := 3 },
       { id := "j5", language := "en", rating := 3 }],
    joke_tags :=
      [("j1", tagObs, 3/5), ("j2", tagObs, 3/5), ("j3", tagObs, 3/5),
       ("j4", tagObs, 3/5), ("j5", tagObs, 3/5)],
    interactions :=
      [{ user_id := "B", joke_id := "j1", itype := "view", recent := true },
       { user_id := "B", joke_id := "j2", itype := "view", recent := true },
       { user_id := "B", joke_id := "j3", itype := "view", recent := true },
       { user_id := "B", joke_id := "j4", itype := "view", recent := true },
       { user_id := "B", joke_id := "j5", itype := "view", recent := true }],
    user_scores := [] }

/-- Environment of scenario C6 wired to `c6_store`: the content step is
the repository ε-greedy path (service-side limit `min(10*2, 50) = 20`),
the collaborative step returns nothing (user `A` has an empty preference
map, so `_find_similar_users` yields `[]`), no AI service. -/
def c6_env (rng : Rng) : ServiceEnv :=
  { content := .ok
      (repo_get_personalized_recommendations c6_store "A" (min (10 * 2) 50) (1/10) (1/2)
        "en" rng),
    collaborative := .ok
      ((get_similar_users_recommendations c6_store [] "A" "en" (min 10 20)).map
        (fun p => (p.1, scoreValue p.2))),
    tagsOf := fun j => .ok (get_joke_tags c6_store j),
    metrics := .ok [], trending := .ok (get_trending_jokes c6_store "en" 10),
    ai_available := false, ai_cooldown := false, ai_jokes := .ok [] }

/-- Environment for the C8 cache scenario: a collaborative joke `jB`
shows up only when `use_collaborative` is on. -/
def c8_env : ServiceEnv :=
  { content := .ok [({ id := "jA", language := "en", rating := 3 }, 1, "exploit")],
    collaborative := .ok [({ id := "jB", language := "en", rating := 3 }, 7/10)],
    tagsOf := fun _ => .ok [], metrics := .ok [], trending := .ok [],
    ai_available := false, ai_cooldown := false, ai_jokes := .ok [] }

/-- The five content-path picks of scenario C6, all strategy `"exploit"`
with exploitation score 0 (the user has no preferences). -/
def c6_recs : List Rec3 :=
  [({ id := "j1", language := "en", rating := 3 }, 0, "exploit"),
   ({ id := "j2", language := "en", rating := 3 }, 0, "exploit"),
   ({ id := "j3", language := "en", rating := 3 }, 0, "exploit"),
   ({ id := "j4", language := "en", rating := 3 }, 0, "exploit"),
   ({ id := "j5", language := "en", rating := 3 }, 0, "exploit")]

lemma lookupRow_setRow_self (store : PrefStore) (t : String) (r : ScoreRow) :
    lookupRow (setRow store t r) t = some r := by
  induction store with
  | nil => simp [setRow, lookupRow, List.find?]
  | cons p ps ih =>
    by_cases h : p.1 = t
    · simp [setRow, h, lookupRow, List.find?]
    · simpa [setRow, h, lookupRow, List.find?] using ih

/-- C1: for every sequence of `updateUserTagScore` calls, with any score
deltas and interaction weights, the stored score after each call (each
prefix of the sequence) lies within `[-1, 1]`, starting from the default
0.0 on row creation. -/
theorem C1_score_bounds (updates : List (ℚ × ℚ)) :
    -1 ≤ (run_tag_score_updates updates).score ∧ (run_tag_score_updates updates).score ≤ 1 :=
  run_tag_score_updates_go updates _ (by norm_num)

/-- C2 counterexample: one `like` on a joke with a single tag of
confidence 0.5, feedback strength 1, fresh user. The stored score becomes
`alpha * delta * confidence²  = 0.3 * 0.3 * 0.25 = 9/400`, not the
claimed `alpha * delta * feedbackStrength * confidence = 9/200`. -/
theorem C2_counterexample :
    lookupRow
        (service_update_user_preferences []
          [({ id := "t1", name := "Observational", category := "style",
              value := "observational" }, 1/2)] "like" 1).1 "t1" =
      some { score := 9/400, interaction_count := 1 } ∧
    (9/400 : ℚ) ≠ 0 + claimed_effective_change (min (3/10) (1/(0+1))) (3/10) 1 (1/2) := by
  constructor
  · norm_num [service_update_user_preferences, update_preferences_from_interaction,
      score_changes, repo_update_user_tag_score, update_user_tag_score, lookupRow, setRow,
      List.find?, List.foldl]
  · norm_num [claimed_effective_change]

/-- C2 amended: for a feedback update on a joke with a tag of confidence
`conf`, the tag's confidence is applied twice — once in the weighted
delta and once as the interaction weight — so the stored score moves by
`alpha * delta * conf * conf` (then clamps), and `feedback_strength` has
no effect on it. -/
theorem C2_amended (t : Tag) (conf feedback_strength s : ℚ) (n : ℕ) (interaction_type : String)
    (hδ : score_changes interaction_type ≠ 0) :
    lookupRow
        (service_update_user_preferences [(t.id, { score := s, interaction_count := n })]
          [(t, conf)] interaction_type feedback_strength).1 t.id =
      some
        { score :=
            max (-1) (min 1
              (s + min ((3:ℚ)/10) (1/((n:ℚ)+1)) * score_changes interaction_type * conf * conf)),
          interaction_count := n + 1 } := by
  have hlist : ([(t, conf)] : List (Tag × ℚ)) ≠ [] := by simp
  have hlook :
      lookupRow [(t.id, ({ score := s, interaction_count := n } : ScoreRow))] t.id =
        some { score := s, interaction_count := n } := by
    simp [lookupRow, List.find?]
  have harith :
      s + min ((3:ℚ)/10) (1/((n : ℚ)+1)) * (score_changes interaction_type * conf) * conf =
        s + min ((3:ℚ)/10) (1/((n : ℚ)+1)) * score_changes interaction_type * conf * conf := by
    ring
  have hupd :
      update_user_tag_score (some { score := s, interaction_count := n })
          (score_changes interaction_type * conf) conf =
        { score :=
            max (-1) (min 1
              (s + min ((3:ℚ)/10) (1/((n:ℚ)+1)) * score_changes interaction_type * conf * conf)),
          interaction_count := n + 1 } := by
    simp only [update_user_tag_score, Option.getD]
    rw [harith]
  simp only [service_update_user_preferences, update_preferences_from_interaction,
    if_neg hlist, if_neg hδ, List.foldl]
  rw [repo_update_user_tag_score, hlook, hupd, lookupRow_setRow_self]

/-- C2 amended, witness: fresh user, single tag of confidence 0.5, a
`like` with feedback strength 7 still lands on `0.3 * 0.3 * 0.25 = 9/400`. -/
theorem C2_amended_witness :
    lookupRow
        (service_update_user_preferences
          [("t1", { score := 0, interaction_count := 0 })]
          [({ id := "t1", name := "Observational", category := "style",
              value := "observational" }, 1/2)] "like" 7).1 "t1" =
      some { score := 9/400, interaction_count := 1 } := by
  have h := C2_amended
    { id := "t1", name := "Observational", category := "style", value := "observational" }
    (1/2) 7 0 0 "like" (by norm_num [score_changes])
  rw [h]
  norm_num [score_changes]

/-- C7 counterexample: seeding initial preferences for a fresh user via
`handleColdStartUser` stores `0.3 * 0.5 = 0.15` for a matched tag, not
`+0.5`: the seed delta 0.5 passes through the §4.2 update rule with
learning rate `alpha = min(0.3, 1/1) = 0.3`. -/
theorem C7_counterexample :
    lookupRow
        (initialize_user_preferences
          (fun c => if c = "style" then
            [{ id := "t1", name := "Observational", category := "style",
               value := "observational" }] else [])
          [("style", ["observational"])] []) "t1" =
      some { score := 3/20, interaction_count := 1 } ∧ (3/20 : ℚ) ≠ 1/2 := by
  constructor
  · norm_num [initialize_user_preferences, List.foldl, List.find?, List.reverse,
      pyLower, repo_update_user_tag_score, update_user_tag_score, lookupRow, setRow]
  · norm_num

/-- C7 amended: when `handleColdStartUser` is given initial preferences,
each matched tag with no prior row for the user is seeded with score
`0.15` (the 0.5 seed delta scaled by the first-interaction learning rate
0.3) and interaction count 1. -/
theorem C7_amended (getTagsByCategory : String → List Tag) (category name : String)
    (store : PrefStore) (t : Tag)
    (hfind :
      List.find? (fun u => pyLower u.name = pyLower name)
        (getTagsByCategory category).reverse = some t)
    (hfresh : lookupRow store t.id = none) :
    lookupRow (initialize_user_preferences getTagsByCategory [(category, [name])] store) t.id =
      some { score := 3/20, interaction_count := 1 } := by
  have hupd : update_user_tag_score none (1/2) 1 = { score := 3/20, interaction_count := 1 } := by
    simp only [update_user_tag_score, Option.getD]
    norm_num
  simp only [initialize_user_preferences, List.foldl, hfind]
  rw [repo_update_user_tag_score, hfresh, hupd, lookupRow_setRow_self]

/-- C7 amended, witness at a concrete taxonomy and fresh store. -/
theorem C7_amended_witness :
    lookupRow
        (initialize_user_preferences
          (fun c => if c = "style" then
            [{ id := "t1", name := "Observational", category := "style",
               value := "observational" }] else [])
          [("style", ["observational"])] []) "t1" =
      some { score := 3/20, interaction_count := 1 } := by
  exact C7_amended
    (fun c => if c = "style" then
      [{ id := "t1", name := "Observational", category := "style",
         value := "observational" }] else [])
    "style" "observational" []
    { id := "t1", name := "Observational", category := "style", value := "observational" }
    (by decide) rfl

lemma totalScore_go (l : List (Tag × ℚ)) (p : List (String × ℚ)) :
    ∀ a : ℚ, l.foldl (fun a tc => a + plookup p tc.1.id * tc.2) a = a + totalScore l p := by
  induction l with
  | nil =>
    intro a
    simp [totalScore, List.foldl]
  | cons x xs ih =>
    intro a
    simp only [totalScore, List.foldl]
    rw [ih, ih]
    ring

lemma totalScore_cons (x : Tag × ℚ) (l : List (Tag × ℚ)) (p : List (String × ℚ)) :
    totalScore (x :: l) p = plookup p x.1.id * x.2 + totalScore l p := by
  simp only [totalScore, List.foldl]
  rw [totalScore_go]
  ring_nf
  rw [totalScore]

lemma totalWeight_go (l : List (Tag × ℚ)) :
    ∀ a : ℚ, l.foldl (fun a tc => a + tc.2) a = a + totalWeight l := by
  induction l with
  | nil =>
    intro a
    simp [totalWeight, List.foldl]
  | cons x xs ih =>
    intro a
    simp only [totalWeight, List.foldl]
    rw [ih, ih]
    ring

lemma totalWeight_cons (x : Tag × ℚ) (l : List (Tag × ℚ)) :
    totalWeight (x :: l) = x.2 + totalWeight l := by
  simp only [totalWeight, List.foldl]
  rw [totalWeight_go]
  ring_nf
  rw [totalWeight]

lemma confSum_go (l : List (Tag × ℚ)) (t : String) :
    ∀ a : ℚ, l.foldl (fun a tc => if tc.1.id = t then a + tc.2 else a) a = a + confSum l t := by
  induction l with
  | nil =>
    intro a
    simp [confSum, List.foldl]
  | cons x xs ih =>
    intro a
    simp only [confSum, List.foldl]
    rw [ih, ih]
    by_cases h : x.1.id = t
    · rw [if_pos h, if_pos h]
      ring
    · rw [if_neg h, if_neg h]
      ring

lemma confSum_cons (x : Tag × ℚ) (l : List (Tag × ℚ)) (t : String) :
    confSum (x :: l) t = (if x.1.id = t then x.2 else 0) + confSum l t := by
  simp only [confSum, List.foldl]
  rw [confSum_go]
  by_cases h : x.1.id = t
  · rw [if_pos h, if_pos h]
    ring_nf
    rw [confSum]
  · rw [if_neg h, if_neg h]
    simp only [confSum, zero_add]

lemma exploit_totals (joke_tags : List (Tag × ℚ)) (prefs : List (String × ℚ)) (a b : ℚ) :
    joke_tags.foldl
        (fun (acc : ℚ × ℚ) tc => (acc.1 + plookup prefs tc.1.id * tc.2, acc.2 + tc.2)) (a, b) =
      (a + totalScore joke_tags prefs, b + totalWeight joke_tags) := by
  induction joke_tags generalizing a b with
  | nil => simp [totalScore, totalWeight, List.foldl]
  | cons x l ih =>
    simp only [List.foldl, ih, totalScore_cons, totalWeight_cons]
    exact Prod.ext (by ring) (by ring)

lemma totalWeight_nonneg (joke_tags : List (Tag × ℚ)) (hconf : ∀ tc ∈ joke_tags, 0 ≤ tc.2) :
    0 ≤ totalWeight joke_tags := by
  induction joke_tags with
  | nil => simp [totalWeight, List.foldl]
  | cons x l ih =>
    rw [totalWeight_cons]
    have hx := hconf x (by simp)
    have hl := ih (fun tc h => hconf tc (by simp [h]))
    linarith

lemma confSum_nonneg (joke_tags : List (Tag × ℚ)) (t : String)
    (hconf : ∀ tc ∈ joke_tags, 0 ≤ tc.2) : 0 ≤ confSum joke_tags t := by
  induction joke_tags with
  | nil => simp [confSum, List.foldl]
  | cons x l ih =>
    rw [confSum_cons]
    have hx := hconf x (by simp)
    have hl := ih (fun tc h => hconf tc (by simp [h]))
    split <;> linarith

lemma plookup_nil (s : String) : plookup [] s = 0 := rfl

lemma totalScore_update (joke_tags : List (Tag × ℚ)) (p p' : List (String × ℚ)) (t : String)
    (hother : ∀ s, s ≠ t → plookup p' s = plookup p s) :
    totalScore joke_tags p' =
      totalScore joke_tags p + (plookup p' t - plookup p t) * confSum joke_tags t := by
  induction joke_tags with
  | nil => simp [totalScore, confSum, List.foldl]
  | cons x l ih =>
    rw [totalScore_cons, totalScore_cons, confSum_cons, ih]
    by_cases h : x.1.id = t
    · rw [h, if_pos rfl]
      ring
    · rw [hother _ h, if_neg h]
      ring

lemma totalScore_of_all_zero (joke_tags : List (Tag × ℚ)) (p : List (String × ℚ))
    (hz : ∀ s, plookup p s = 0) : totalScore joke_tags p = 0 := by
  induction joke_tags with
  | nil => simp [totalScore, List.foldl]
  | cons x l ih =>
    rw [totalScore_cons, hz, ih]
    ring

/-- C9: for a fixed joke tag list with nonnegative confidences and a
fixed preference map, raising the preference of one tag (all other
lookups unchanged) never decreases the exploitation score. -/
theorem C9_exploitation_monotone (joke_tags : List (Tag × ℚ))
    (p p' : List (String × ℚ)) (t : String)
    (hconf : ∀ tc ∈ joke_tags, 0 ≤ tc.2)
    (hother : ∀ s, s ≠ t → plookup p' s = plookup p s)
    (hincr : plookup p t ≤ plookup p' t) :
    calculate_exploitation_score joke_tags p ≤ calculate_exploitation_score joke_tags p' := by
  rcases eq_or_ne joke_tags [] with hjt | hjt
  · simp [calculate_exploitation_score, hjt]
  have hW0 : 0 ≤ totalWeight joke_tags := totalWeight_nonneg _ hconf
  have hcs : 0 ≤ confSum joke_tags t := confSum_nonneg _ _ hconf
  have hdiff := totalScore_update joke_tags p p' t hother
  have hSS : totalScore joke_tags p ≤ totalScore joke_tags p' := by
    nlinarith [mul_nonneg (sub_nonneg.mpr hincr) hcs]
  simp only [calculate_exploitation_score, exploit_totals, zero_add, hjt, false_or]
  rcases eq_or_ne p [] with hp | hp
  · rcases eq_or_ne p' [] with hp' | hp'
    · simp [hp, hp']
    · have hz : ∀ s, plookup p s = 0 := by
        intro s
        rw [hp]
        exact plookup_nil s
      have hS0 : totalScore joke_tags p = 0 := totalScore_of_all_zero _ _ hz
      have hS' : 0 ≤ totalScore joke_tags p' := by
        rw [hdiff, hS0]
        have := hz t
        nlinarith [mul_nonneg (sub_nonneg.mpr hincr) hcs]
      rw [if_pos hp, if_neg hp']
      by_cases hW : totalWeight joke_tags > 0
      · rw [if_pos hW]
        exact div_nonneg hS' hW0
      · rw [if_neg hW]
  · rcases eq_or_ne p' [] with hp' | hp'
    · have hz : ∀ s, plookup p' s = 0 := by
        intro s
        rw [hp']
        exact plookup_nil s
      have hS'0 : totalScore joke_tags p' = 0 := totalScore_of_all_zero _ _ hz
      have hS : totalScore joke_tags p ≤ 0 := by
        rw [hS'0] at hSS
        exact hSS
      rw [if_neg hp, if_pos hp']
      by_cases hW : totalWeight joke_tags > 0
      · rw [if_pos hW]
        exact div_nonpos_of_nonpos_of_nonneg hS hW0
      · rw [if_neg hW]
    · rw [if_neg hp, if_neg hp']
      by_cases hW : totalWeight joke_tags > 0
      · rw [if_pos hW, if_pos hW]
        exact (div_le_div_iff_of_pos_right hW).mpr hSS
      · rw [if_neg hW, if_neg hW]

/-- C9 witness: joke tagged with one tag at confidence 0.5; raising the
user's preference for that tag from 0 to 0.5 raises the score from 0 to
0.5. -/
theorem C9_exploitation_monotone_witness :
    calculate_exploitation_score
        [({ id := "t1", name := "Observational", category := "style",
            value := "observational" }, 1/2)] [("t1", 0)] ≤
      calculate_exploitation_score
        [({ id := "t1", name := "Observational", category := "style",
            value := "observational" }, 1/2)] [("t1", 1/2)] := by
  apply C9_exploitation_monotone _ _ _ "t1"
  · rintro tc hm
    simp only [List.mem_singleton] at hm
    subst hm
    norm_num
  · intro s hs
    simp [plookup, List.find?, Ne.symm hs]
  · norm_num [plookup, List.find?]

lemma groupsLookup_mem {groups : List (String × List Rec3)} {c : String} {l : List Rec3}
    (h : groupsLookup groups c = some l) : (c, l) ∈ groups := by
  unfold groupsLookup at h
  rcases Option.map_eq_some'.mp h with ⟨e, he, hel⟩
  have hc := List.find?_some he
  have hmem := List.mem_of_find?_eq_some he
  obtain ⟨a, b⟩ := e
  simp only [decide_eq_true_eq] at hc
  cases hc
  cases hel
  exact hmem

lemma groupsSet_itemsP (groups : List (String × List Rec3)) (c : String) (v : List Rec3)
    (P : Rec3 → Prop) (hg : groupsItemsP P groups) (hv : ∀ r ∈ v, P r) :
    groupsItemsP P (groupsSet groups c v) := by
  induction groups with
  | nil =>
    intro e he r hr
    simp only [groupsSet, List.mem_singleton] at he
    subst he
    exact hv r hr
  | cons g gs ih =>
    have hg' : groupsItemsP P gs := fun e he => hg e (List.mem_cons_of_mem _ he)
    have hgg : ∀ r ∈ g.2, P r := hg g (List.mem_cons_self _ _)
    intro e he r hr
    by_cases h : g.1 = c
    · simp only [groupsSet, if_pos h] at he
      rcases List.mem_cons.mp he with h1 | h1
      · subst h1
        exact hv r hr
      · exact hg' e h1 r hr
    · simp only [groupsSet, if_neg h] at he
      rcases List.mem_cons.mp he with h1 | h1
      · subst h1
        exact hgg r hr
      · exact ih hg' e h1 r hr

lemma groupsRemove_itemsP (groups : List (String × List Rec3)) (c : String)
    (P : Rec3 → Prop) (hg : groupsItemsP P groups) :
    groupsItemsP P (groupsRemove groups c) := by
  intro e he
  exact hg e (List.mem_of_mem_filter he)

lemma groupsAppend_itemsP (groups : List (String × List Rec3)) (c : String) (x : Rec3)
    (P : Rec3 → Prop) (hg : groupsItemsP P groups) (hx : P x) :
    groupsItemsP P (groupsAppend groups c x) := by
  unfold groupsAppend
  cases hl : groupsLookup groups c with
  | some l =>
    apply groupsSet_itemsP _ _ _ _ hg
    intro r hr
    rcases List.mem_append.mp hr with h | h
    · exact hg _ (groupsLookup_mem hl) r h
    · simp only [List.mem_singleton] at h
      subst h
      exact hx
  | none =>
    intro e he r hr
    rcases List.mem_append.mp he with h | h
    · exact hg e h r hr
    · simp only [List.mem_singleton] at h
      subst h
      simp only [List.mem_singleton] at hr
      subst hr
      exact hx

lemma rrStep_inv (P : Rec3 → Prop) (limit : ℕ) (c : String) (st : RRState)
    (hacc : ∀ r ∈ st.acc, P r) (hg : groupsItemsP P st.groups) :
    (∀ r ∈ (rrStep limit c st).1.acc, P r) ∧ groupsItemsP P (rrStep limit c st).1.groups := by
  cases hl : groupsLookup st.groups c with
  | none =>
    simp only [rrStep, hl]
    exact ⟨hacc, hg⟩
  | some l =>
    cases l with
    | nil =>
      simp only [rrStep, hl]
      exact ⟨hacc, groupsRemove_itemsP _ _ _ hg⟩
    | cons x rest =>
      have hx : P x := hg _ (groupsLookup_mem hl) x (by simp)
      have hacc' : ∀ r ∈ st.acc ++ [x], P r := by
        intro r hr
        rcases List.mem_append.mp hr with h | h
        · exact hacc r h
        · simp only [List.mem_singleton] at h
          subst h
          exact hx
      have hrest : ∀ r ∈ rest, P r := by
        intro r hr
        exact hg _ (groupsLookup_mem hl) r (by simp [hr])
      have hset : groupsItemsP P (groupsSet st.groups c rest) :=
        groupsSet_itemsP _ _ _ _ hg hrest
      simp only [rrStep, hl]
      split
      · exact ⟨hacc', hset⟩
      · split
        · exact ⟨hacc', groupsRemove_itemsP _ _ _ hset⟩
        · exact ⟨hacc', hset⟩

lemma rrPass_inv (P : Rec3 → Prop) (limit : ℕ) :
    ∀ (keys : List String) (st : RRState), (∀ r ∈ st.acc, P r) → groupsItemsP P st.groups →
      (∀ r ∈ (rrPass limit keys st).acc, P r) ∧ groupsItemsP P (rrPass limit keys st).groups := by
  intro keys
  induction keys with
  | nil =>
    intro st h1 h2
    exact ⟨h1, h2⟩
  | cons c cs ih =>
    intro st h1 h2
    have hinv := rrStep_inv P limit c st h1 h2
    cases hstep : rrStep limit c st with
    | mk st' brk =>
      rw [hstep] at hinv
      cases brk
      · simpa only [rrPass, hstep] using ih st' hinv.1 hinv.2
      · simpa only [rrPass, hstep] using hinv

lemma rrLoop_inv (P : Rec3 → Prop) (limit : ℕ) :
    ∀ (fuel : ℕ) (st : RRState), (∀ r ∈ st.acc, P r) → groupsItemsP P st.groups →
      ∀ r ∈ rrLoop limit fuel st, P r := by
  intro fuel
  induction fuel with
  | zero =>
    intro st h1 _ r hr
    exact h1 r hr
  | succ n ih =>
    intro st h1 h2
    simp only [rrLoop]
    split
    · have := rrPass_inv P limit st.keys st h1 h2
      exact ih _ this.1 this.2
    · exact h1

lemma build_groups_ok (tagsOf : String → List (Tag × ℚ)) :
    ∀ (recs : List Rec3) (gs : List (String × List Rec3)),
      groupsItemsP (fun r => tagsOf r.1.id ≠ []) gs →
      ∃ g, build_groups (fun j => .ok (tagsOf j)) recs gs = .ok g ∧
        groupsItemsP (fun r => tagsOf r.1.id ≠ []) g := by
  intro recs
  induction recs with
  | nil =>
    intro gs hgs
    exact ⟨gs, rfl, hgs⟩
  | cons r rs ih =>
    intro gs hgs
    cases htr : tagsOf r.1.id with
    | nil =>
      obtain ⟨g, hgeq, hp⟩ := ih gs hgs
      refine ⟨g, ?_, hp⟩
      simpa only [build_groups, htr] using hgeq
    | cons tc rest =>
      obtain ⟨t, cf⟩ := tc
      have hP : tagsOf r.1.id ≠ [] := by
        rw [htr]
        simp
      obtain ⟨g, hgeq, hp⟩ := ih (groupsAppend gs t.category r)
        (groupsAppend_itemsP _ _ _ _ hgs hP)
      refine ⟨g, ?_, hp⟩
      simpa only [build_groups, htr] using hgeq

/-- C10: the diversity re-ranking step drops candidates whose joke has no
tags whenever it actually re-ranks (candidate list longer than `limit`),
can therefore return fewer than `limit` items even when the pool exceeds
`limit` (third conjunct exhibits such a pool), and returns candidate
lists of length at most `limit` completely unchanged. -/
theorem C10_ensure_diversity (tagsOf : String → List (Tag × ℚ)) (recs : List Rec3) (limit : ℕ) :
    (recs.length ≤ limit →
      ensure_diversityE (fun j => .ok (tagsOf j)) recs limit = .ok recs) ∧
    (limit < recs.length →
      ∃ out, ensure_diversityE (fun j => .ok (tagsOf j)) recs limit = .ok out ∧
        ∀ r ∈ out, tagsOf r.1.id ≠ []) ∧
    (∃ (tOf : String → List (Tag × ℚ)) (rs : List Rec3) (lim : ℕ) (out : List Rec3),
      lim < rs.length ∧
        ensure_diversityE (fun j => .ok (tOf j)) rs lim = .ok out ∧ out.length < lim) := by
  refine ⟨?_, ?_, ?_⟩
  · intro h
    simp [ensure_diversityE, h]
  · intro h
    have hnot : ¬ recs.length ≤ limit := not_le.mpr h
    obtain ⟨g, hg, hp⟩ := build_groups_ok tagsOf recs [] (by intro e he; cases he)
    refine ⟨rrLoop limit (recs.length + 1) { groups := g, keys := g.map Prod.fst, acc := [] },
      ?_, ?_⟩
    · simp only [ensure_diversityE, if_neg hnot, hg]
    · exact rrLoop_inv _ limit _ _ (by intro r hr; cases hr) hp
  · refine ⟨fun _ => [],
      [({ id := "j1", language := "en", rating := 3 }, 0, "exploit"),
       ({ id := "j2", language := "en", rating := 3 }, 0, "exploit")], 1, [], ?_, ?_, ?_⟩
    · decide
    · rfl
    · decide

/-- C10 witness: a 1-element list is returned unchanged at limit 2, and a
3-element pool at limit 1 yields an output whose members all carry tags. -/
theorem C10_ensure_diversity_witness :
    (ensure_diversityE
        (fun _ => .ok ([({ id := "t1", name := "Pun", category := "style",
                           value := "pun" }, 1)] : List (Tag × ℚ)))
        [({ id := "j1", language := "en", rating := 3 }, 0, "exploit")] 2 =
      .ok [({ id := "j1", language := "en", rating := 3 }, 0, "exploit")]) ∧
    (∃ out,
      ensure_diversityE
          (fun _ => .ok ([({ id := "t1", name := "Pun", category := "style",
                             value := "pun" }, 1)] : List (Tag × ℚ)))
          [({ id := "j1", language := "en", rating := 3 }, 0, "exploit"),
           ({ id := "j2", language := "en", rating := 3 }, 0, "exploit"),
           ({ id := "j3", language := "en", rating := 3 }, 0, "exploit")] 1 =
        .ok out ∧
      ∀ r ∈ out,
        (fun _ : String => ([({ id := "t1", name := "Pun", category := "style",
                                value := "pun" }, 1)] : List (Tag × ℚ))) r.1.id ≠ []) := by
  constructor
  · exact (C10_ensure_diversity _ _ 2).1 (by decide)
  · exact (C10_ensure_diversity _ _ 1).2.1 (by decide)

/-- C4: `getPersonalizedRecommendations` never propagates an error: for
every pattern of step outcomes it returns a result, and whenever the main
path fails the returned result is exactly the fallback path's (which is
itself total: its outer handler converts any failure into an empty
result). -/
theorem C4_never_propagates (env : ServiceEnv) (limit : ℕ) (use_collaborative : Bool) :
    ∃ r, service_get_personalized_recommendations env limit use_collaborative = .ok r ∧
      (∀ e, service_main env limit use_collaborative = .error e →
        r = get_fallback_recommendations env limit) := by
  cases hm : service_main env limit use_collaborative with
  | ok r =>
    refine ⟨r, ?_, ?_⟩
    · simp [service_get_personalized_recommendations, hm]
    · intro e he
      exact Except.noConfusion he
  | error e =>
    refine ⟨get_fallback_recommendations env limit, ?_, fun _ _ => rfl⟩
    simp [service_get_personalized_recommendations, hm]

/-- C4 witness: with every collaborator failing, the call still returns —
the fallback path's empty result. -/
theorem C4_never_propagates_witness :
    service_get_personalized_recommendations c4_env_err 10 true =
      .ok { jokes := [], strategy_breakdown := [], performance_metrics := [("error", 1)],
            cache_hit := false } := by
  obtain ⟨r, hok, himp⟩ := C4_never_propagates c4_env_err 10 true
  have hmain : service_main c4_env_err 10 true = .error "db" := rfl
  rw [himp "db" hmain] at hok
  have hfb : get_fallback_recommendations c4_env_err 10 =
      { jokes := [], strategy_breakdown := [], performance_metrics := [("error", 1)],
        cache_hit := false } := rfl
  rw [hfb] at hok
  exact hok

/-- C5 amended: the primary content path does honour the exclusion — no
joke produced by `_get_unseen_jokes_with_tags` is in the user's
view/like/skip set. (The claim's extension to fallback results is false:
see the counterexample.) -/
theorem C5_amended (store : Store) (user_id language : String) (min_confidence : ℚ)
    (j : Joke) (tags : List (Tag × ℚ))
    (hmem : (j, tags) ∈ get_unseen_jokes_with_tags store user_id language min_confidence) :
    j.id ∉ seen_joke_ids store user_id := by
  unfold get_unseen_jokes_with_tags at hmem
  have hmem' := List.mem_of_mem_filter hmem
  rcases List.mem_map.mp hmem' with ⟨j0, hj0, heq⟩
  have hj : j0 = j := congrArg Prod.fst heq
  subst hj
  have hj1 : j0 ∈ store.jokes.filter (fun j =>
      decide (j.language = language ∧ j.id ∉ seen_joke_ids store user_id ∧ j.rating ≥ 2)) :=
    List.take_subset _ _ hj0
  have := List.of_mem_filter hj1
  simp only [decide_eq_true_eq] at this
  exact this.2.1

/-- C5 amended, witness: a store with one unseen tagged joke produces it,
and its id is indeed outside the (empty) seen set. -/
theorem C5_amended_witness :
    ({ id := "j1", language := "en", rating := 3 } : Joke).id ∉
      seen_joke_ids c5w_store "A" := by
  apply C5_amended c5w_store "A" "en" (1/2) _ [(tagObs, 3/5)]
  have h : get_unseen_jokes_with_tags c5w_store "A" "en" (1/2) =
      [({ id := "j1", language := "en", rating := 3 }, [(tagObs, 3/5)])] := by
    norm_num [get_unseen_jokes_with_tags, seen_joke_ids, c5w_store, List.filter, List.map,
      List.take]
  rw [h]
  exact List.mem_singleton.mpr rfl

/-- C5 counterexample: with `excludeSeen = true`, a failure in the
content step routes the call through the fallback path, whose trending
query does not filter the user's seen set: the single returned joke `j1`
is one the user has already viewed. -/
theorem C5_counterexample :
    ((service_call [] 0 c5_env "A" 1 "en" true true).1.jokes.map (fun r => r.1.id)) =
        ["j1"] ∧
      "j1" ∈ seen_joke_ids c5_store "A" := by
  constructor
  · rfl
  · decide

lemma get_cached_cache_store (cache : List CacheEntry) (key : String)
    (r : RecommendationResult) (now1 now2 : ℚ) (h : now2 < now1 + 300) :
    get_cached_recommendations (cache_store cache key r now1) key now2 =
      some { r with cache_hit := true } := by
  unfold get_cached_recommendations cache_store
  have hnone : List.find? (fun e => e.key = key)
      (cache.filter (fun e => ¬(e.key = key))) = none := by
    apply List.find?_eq_none.mpr
    intro e he
    have := List.of_mem_filter he
    simpa using this
  rw [List.find?_append, hnone]
  simp [List.find?, h]

lemma service_call_miss (cache : List CacheEntry) (now : ℚ) (env : ServiceEnv)
    (user_id : String) (limit : ℕ) (language : String) (excl uc : Bool)
    (r : RecommendationResult)
    (hmiss : get_cached_recommendations cache (cache_key user_id limit language excl) now =
      none)
    (hmain : service_main env limit uc = .ok r) :
    service_call cache now env user_id limit language excl uc =
      (r, cache_store cache (cache_key user_id limit language excl) r now) := by
  simp only [service_call, hmiss, hmain]

lemma service_call_hit (cache : List CacheEntry) (now : ℚ) (env : ServiceEnv)
    (user_id : String) (limit : ℕ) (language : String) (excl uc : Bool)
    (r : RecommendationResult)
    (hhit : get_cached_recommendations cache (cache_key user_id limit language excl) now =
      some r) :
    service_call cache now env user_id limit language excl uc = (r, cache) := by
  simp only [service_call, hhit]

/-- C8 amended: the cache key is `(userId, limit, language, excludeSeen)`
only — `useCollaborative` is not part of it. A result stored by a
cache-missing call whose main path succeeded is returned (marked
`cache_hit = true`) to any later call within the 5-minute TTL whose
user, limit, language and excludeSeen are equal, whatever either call's
`useCollaborative` (and even a different environment): two calls by the
same user differing only in `useCollaborative` share the cache entry. -/
theorem C8_amended (cache : List CacheEntry) (now1 now2 : ℚ) (env1 env2 : ServiceEnv)
    (user_id language : String) (limit : ℕ) (exclude_seen uc1 uc2 : Bool)
    (r : RecommendationResult)
    (hmiss : get_cached_recommendations cache
      (cache_key user_id limit language exclude_seen) now1 = none)
    (hmain : service_main env1 limit uc1 = .ok r)
    (httl : now2 < now1 + 300) :
    (service_call cache now1 env1 user_id limit language exclude_seen uc1).1 = r ∧
    (service_call (service_call cache now1 env1 user_id limit language exclude_seen uc1).2
        now2 env2 user_id limit language exclude_seen uc2).1 =
      { r with cache_hit := true } := by
  have h1 := service_call_miss cache now1 env1 user_id limit language exclude_seen uc1 r
    hmiss hmain
  have hc := get_cached_cache_store cache (cache_key user_id limit language exclude_seen)
    r now1 now2 httl
  have h2 := service_call_hit
    (cache_store cache (cache_key user_id limit language exclude_seen) r now1) now2 env2
    user_id limit language exclude_seen uc2 _ hc
  constructor
  · rw [h1]
  · rw [h1]
    rw [h2]

/-- C8 amended, witness: concrete two-call run (store with
`useCollaborative = true`, hit with `useCollaborative = false`, 100 s
later). -/
theorem C8_amended_witness :
    ∃ r, (service_call [] 0 c8_env "u" 2 "en" true true).1 = r ∧
      (service_call (service_call [] 0 c8_env "u" 2 "en" true true).2 100 c8_env "u" 2
          "en" true false).1 =
        { r with cache_hit := true } := by
  obtain ⟨r, hr⟩ : ∃ x, service_main c8_env 2 true = .ok x := ⟨_, rfl⟩
  exact ⟨r,
    (C8_amended [] 0 100 c8_env c8_env "u" "en" 2 true true false r rfl hr (by norm_num)).1,
    (C8_amended [] 0 100 c8_env c8_env "u" "en" 2 true true false r rfl hr (by norm_num)).2⟩

/-- C8 counterexample: the two calls differ only in `useCollaborative`
(and would produce different joke lists — `[jA, jB]` with collaborative
on, `[jA]` with it off), yet the second call is answered from the first
call's cache entry. -/
theorem C8_counterexample :
    ((service_call (service_call [] 0 c8_env "u" 2 "en" true true).2 100 c8_env "u" 2
        "en" true false).1 =
      { (service_call [] 0 c8_env "u" 2 "en" true true).1 with cache_hit := true }) ∧
    ((service_call [] 0 c8_env "u" 2 "en" true true).1.jokes.map (fun x => x.1.id) =
      ["jA", "jB"]) ∧
    ((service_call [] 0 c8_env "u" 2 "en" true false).1.jokes.map (fun x => x.1.id) =
      ["jA"]) := by
  obtain ⟨r1, hr1⟩ : ∃ x, service_main c8_env 2 true = .ok x := ⟨_, rfl⟩
  have h1 := service_call_miss [] 0 c8_env "u" 2 "en" true true r1 rfl hr1
  have hc := get_cached_cache_store [] (cache_key "u" 2 "en" true) r1 0 100 (by norm_num)
  have h2 := service_call_hit (cache_store [] (cache_key "u" 2 "en" true) r1 0) 100 c8_env
    "u" 2 "en" true false _ hc
  refine ⟨?_, ?_, ?_⟩
  · rw [h1]
    exact congrArg Prod.fst h2
  · rfl
  · rfl

/-- C3 (code bug): in `get_similar_users_recommendations` the score
paired with each joke is `self._calculate_collaborative_score(...)`
without `await` — a coroutine object, not a float. At the failing input
(similar user `B` with similarity 1 liked joke `k`, unseen by target
`A`), the function pairs the coroutine with the joke; awaiting would have
produced the formula value `Σ sim·weight / Σ sim = 1.0`, and a coroutine
is never a float (the source's type annotation, docstring and test
`assert isinstance(similarity_score, float)` all expect a float). -/
theorem C3_missing_await :
    get_similar_users_recommendations c3_store [("B", 1)] "A" "en" 10 =
      [({ id := "k", language := "en", rating := 3 }, PyValue.coroutine 1)] ∧
    calculate_collaborative_score c3_store "k" [("B", 1)] = 1 ∧
    (∀ x : ℚ, PyValue.coroutine 1 ≠ PyValue.float x) := by
  have hscore : calculate_collaborative_score c3_store "k" [("B", 1)] = 1 := by
    norm_num [calculate_collaborative_score, c3_store, interaction_score, simLookup,
      List.filter, List.foldl, List.find?, List.any]
  refine ⟨?_, hscore, ?_⟩
  · norm_num [get_similar_users_recommendations, c3_store, seen_joke_ids, sortDescBy,
      insertDescBy, List.filter, List.filterMap, List.find?, List.take, List.map,
      List.any]
    exact hscore
  · intro x
    simp

lemma dedupById_of_nodup :
    ∀ (l : List Rec3) (seen : List String),
      (l.map (fun r => r.1.id)).Nodup → (∀ r ∈ l, r.1.id ∉ seen) → dedupById l seen = l := by
  intro l
  induction l with
  | nil =>
    intro seen _ _
    rfl
  | cons r rs ih =>
    intro seen hnd hseen
    rw [List.map_cons] at hnd
    have hnd' := List.nodup_cons.mp hnd
    unfold dedupById
    rw [if_neg (hseen r (List.mem_cons_self _ _))]
    congr 1
    apply ih (r.1.id :: seen) hnd'.2
    intro x hx hmem
    rcases List.mem_cons.mp hmem with h | h
    · exact hnd'.1 (h ▸ List.mem_map.mpr ⟨x, hx, rfl⟩)
    · exact hseen x (List.mem_cons_of_mem _ hx) h

lemma c6_content_eval (rng : Rng) :
    repo_get_personalized_recommendations c6_store "A" (min (10 * 2) 50) (1/10) (1/2)
        "en" rng =
      (rng.shuffleFinal c6_recs).take 20 := by
  have hseen : seen_joke_ids c6_store "A" = [] := by rfl
  have hprefs : get_user_preferences c6_store "A" = [] := by rfl
  have hunseen : get_unseen_jokes_with_tags c6_store "A" "en" (1/2) =
      [({ id := "j1", language := "en", rating := 3 }, [(tagObs, 3/5)]),
       ({ id := "j2", language := "en", rating := 3 }, [(tagObs, 3/5)]),
       ({ id := "j3", language := "en", rating := 3 }, [(tagObs, 3/5)]),
       ({ id := "j4", language := "en", rating := 3 }, [(tagObs, 3/5)]),
       ({ id := "j5", language := "en", rating := 3 }, [(tagObs, 3/5)])] := by
    norm_num [get_unseen_jokes_with_tags, hseen, c6_store, List.filter, List.map, List.take]
  have hscore : calculate_exploitation_score [(tagObs, 3/5)] [] = 0 := by
    simp [calculate_exploitation_score]
  have hcount : ((⌊((min (10 * 2) 50 : ℕ) : ℚ) * (1 - 1/10)⌋).toNat) = 18 := by
    norm_num
    rfl
  simp only [repo_get_personalized_recommendations, hprefs, hunseen]
  norm_num [sortDescBy, insertDescBy, hscore, hcount, List.take, List.map, c6_recs,
    List.cons_ne_nil]

lemma c6_service_eval (rng : Rng) (hperm : ∀ l, List.Perm (rng.shuffleFinal l) l) :
    service_get_personalized_recommendations (c6_env rng) 10 true =
      .ok { jokes := rng.shuffleFinal c6_recs,
            strategy_breakdown := strategy_breakdown_of (rng.shuffleFinal c6_recs),
            performance_metrics := [], cache_hit := false } := by
  have hS := hperm c6_recs
  have hlen : (rng.shuffleFinal c6_recs).length = 5 := by
    rw [hS.length_eq]
    rfl
  have htake : (rng.shuffleFinal c6_recs).take 20 = rng.shuffleFinal c6_recs :=
    List.take_of_length_le (by omega)
  have hnodup : ((rng.shuffleFinal c6_recs).map (fun r => r.1.id)).Nodup := by
    rw [(hS.map (fun r => r.1.id)).nodup_iff]
    decide
  have hdedup : dedupById (rng.shuffleFinal c6_recs) [] = rng.shuffleFinal c6_recs :=
    dedupById_of_nodup _ _ hnodup (by intro r _ h; cases h)
  have hcollab : (get_similar_users_recommendations c6_store [] "A" "en" (min 10 20)).map
      (fun p => (p.1, scoreValue p.2)) = [] := rfl
  have hmain : service_main (c6_env rng) 10 true =
      .ok { jokes := rng.shuffleFinal c6_recs,
            strategy_breakdown := strategy_breakdown_of (rng.shuffleFinal c6_recs),
            performance_metrics := [], cache_hit := false } := by
    simp only [service_main, c6_env, c6_content_eval rng, htake, if_pos, hcollab,
      combine_recommendations, List.map, List.append_nil, hdedup, ensure_diversityE]
    rw [if_pos (by omega : (rng.shuffleFinal c6_recs).length ≤ 10)]
  simp only [service_get_personalized_recommendations, hmain]

/-- C6 amended: end-to-end scenario 1 (empty preference history,
`excludeSeen=true`, `limit=10`, a store holding exactly 5 trending —
tagged, rating-qualified — jokes, no AI service) raises no error and
returns exactly those 5 jokes, but each carries strategy `"exploit"`
from the content path; the `"fallback"` strategy is produced only when a
step raises. Stated for every final shuffle that is a permutation. -/
theorem C6_amended (rng : Rng) (hperm : ∀ l, List.Perm (rng.shuffleFinal l) l) :
    ∃ r, service_get_personalized_recommendations (c6_env rng) 10 true = .ok r ∧
      r.jokes.length = 5 ∧ ∀ x ∈ r.jokes, x.2.2 = "exploit" := by
  refine ⟨_, c6_service_eval rng hperm, ?_, ?_⟩
  · rw [(hperm c6_recs).length_eq]
    rfl
  · intro x hx
    have hx' := (hperm c6_recs).mem_iff.mp hx
    simp only [c6_recs, List.mem_cons, List.not_mem_nil, or_false] at hx'
    rcases hx' with rfl | rfl | rfl | rfl | rfl <;> rfl

/-- C6 amended, witness: the identity shuffle. -/
theorem C6_amended_witness :
    ∃ r, service_get_personalized_recommendations (c6_env idRng) 10 true = .ok r ∧
      r.jokes.length = 5 ∧ ∀ x ∈ r.jokes, x.2.2 = "exploit" :=
  C6_amended idRng (fun l => List.Perm.refl l)

/-- C6 counterexample: in the claimed scenario the call returns 5 jokes
and no error, but their strategies are all `"exploit"`, not
`"fallback"` (shown with the identity shuffle). -/
theorem C6_counterexample :
    service_get_personalized_recommendations (c6_env idRng) 10 true =
      .ok { jokes := c6_recs, strategy_breakdown := [("exploit", 5)],
            performance_metrics := [], cache_hit := false } ∧
    c6_recs.length = 5 ∧
    c6_recs.map (fun x => x.2.2) =
      ["exploit", "exploit", "exploit", "exploit", "exploit"] ∧
    ¬ (∀ x ∈ c6_recs, x.2.2 = "fallback") := by
  refine ⟨?_, rfl, rfl, ?_⟩
  · rw [c6_service_eval idRng (fun l => List.Perm.refl l)]
    rfl
  · intro h
    have := h _ (List.mem_cons_self _ _)
    exact absurd this (by decide)

end GiggleGlide
